import Mathlib

/-!
Verification development for the WCVM_VetMic ETL scripts.

Shallow embedding of the core operations of the repository:
  - src/etl/UCVM_works.py           (namespace UCVM)
  - src/etl/utils.openalex.py       (namespace Utils)
  - src/etl/fetch_author_metrics.py (namespace Metrics)
  - src/etl/fetch_author_metrics (4).py (namespace Metrics4)

Python strings are modelled as List Char; pandas DataFrames as a column
list plus a list of rows of string cells; HTTP traffic as a script of
responses consumed in order.  Sleep durations are rationals.
-/

/-! ## Python string helpers (str.strip, str.lower, str.rstrip, str.split) -/

/-- Whitespace characters recognised by Python str.strip(). -/
def pyWs (c : Char) : Bool :=
  c = ' ' ∨ c = '\t' ∨ c = '\n' ∨ c = '\r' ∨ c = '\x0b' ∨ c = '\x0c'

/-- Remove leading Python whitespace (left part of str.strip()). -/
def trimL (l : List Char) : List Char := l.dropWhile pyWs

/-- Remove trailing Python whitespace (right part of str.strip()). -/
def trimR (l : List Char) : List Char := (l.reverse.dropWhile pyWs).reverse

/-- Python str.strip(): remove leading and trailing whitespace. -/
def pystrip (l : List Char) : List Char := trimR (trimL l)

/-- Python str.lower(), ASCII model. -/
def lowerL (l : List Char) : List Char := l.map Char.toLower

/-- Python s.rstrip("/"): drop trailing slashes. -/
def rstripSlash (l : List Char) : List Char := (l.reverse.dropWhile (· = '/')).reverse

/-- Python s.split("/")[-1]: the segment after the last slash
(the whole string when no slash occurs). -/
def lastSegAfterSlash (l : List Char) : List Char :=
  (l.reverse.takeWhile (· ≠ '/')).reverse

/-- Python s.split(":", 1)[1]: everything after the first colon.
Only used under a guard that ensures a colon is present. -/
def afterFirstColon : List Char → List Char
  | [] => []
  | c :: rest => if c = ':' then rest else afterFirstColon rest

namespace UCVM

/-- re.search(r"A\d6,", s): leftmost occurrence of a capital A followed by
at least six decimal digits; the digit run is maximal (greedy match).
Returns the matched substring. -/
def regexSearchA : List Char → Option (List Char)
  | [] => none
  | c :: rest =>
    if c = 'A' ∧ 6 ≤ (rest.takeWhile Char.isDigit).length
    then some ('A' :: rest.takeWhile Char.isDigit)
    else regexSearchA rest

/-- src/etl/UCVM_works.py, normalize_author_id (lines 61-74):
strip; empty gives None; when a slash occurs take the last path segment of
the rstrip("/")-ed string; then search for an A-plus-digits token. -/
def normalize_author_id (raw : List Char) : Option (List Char) :=
  let s := pystrip raw
  if s = [] then none
  else
    let s := if '/' ∈ s then lastSegAfterSlash (rstripSlash s) else s
    regexSearchA s

end UCVM

namespace Utils

/-- src/etl/utils.openalex.py, _ensure_openalex_uri (lines 29-34):
return the stripped id unchanged when it already starts with a protocol
scheme, else prepend the canonical site address. -/
def ensure_openalex_uri (author_id : List Char) : List Char :=
  let aid := pystrip author_id
  if ("http://".toList).isPrefixOf aid ∨ ("https://".toList).isPrefixOf aid then aid
  else ("https://openalex.org/".toList) ++ aid

end Utils

namespace Metrics

/-- Uppercase the leading letter when it is a lower- or upper-case A
(Python: if last and last[0].lower() == "a": last = "A" + last[1:]). -/
def upA : List Char → List Char
  | [] => []
  | c :: rest => if c.toLower = 'a' then 'A' :: rest else c :: rest

/-- src/etl/fetch_author_metrics.py, normalize_author_id (lines 101-128)
(identical in fetch_author_metrics (4).py, lines 115-143):
convert an author id in any accepted form into a canonical API URL. -/
def normalize_author_id (author_id : List Char) : List Char :=
  let aid := pystrip author_id
  if aid = [] ∨ lowerL aid = "nan".toList ∨ lowerL aid = "none".toList then []
  else if ("https://openalex.org/".toList).isPrefixOf aid
       ∨ ("http://openalex.org/".toList).isPrefixOf aid then
    ("https://api.openalex.org/authors/".toList)
      ++ upA (lastSegAfterSlash (rstripSlash aid))
  else if ("https://api.openalex.org/".toList).isPrefixOf aid
       ∨ ("http://api.openalex.org/".toList).isPrefixOf aid then
    aid
  else
    let aid := if ("openalex:".toList).isPrefixOf (lowerL aid)
               then afterFirstColon aid else aid
    ("https://api.openalex.org/authors/".toList) ++ upA aid

end Metrics

/-! ## HTTP traffic model

A fetch consumes a script of server responses in order.  A response is a
successful JSON page (results plus optional next cursor), an HTTP error
status (code at least 400), or a transport-level exception. -/

inductive Resp (α : Type) where
  | page (results : List α) (nextCursor : Option String)
  | status (code : Nat)
  | netErr
deriving DecidableEq

/-- Retriable status codes shared by the scripts (429 plus 5xx set). -/
def RETRIABLE : List Nat := [429, 500, 502, 503, 504]

/-- MAX_RETRIES = 6 in UCVM_works.py and utils.openalex.py. -/
def MAX_RETRIES : Nat := 6

/-- BACKOFF_BASE = 1.6, modelled as the rational 8/5. -/
def BACKOFF_BASE : ℚ := 8 / 5

namespace Utils

/-- src/etl/utils.openalex.py, fetch_author_works_filtered main loop
(lines 73-108).  State: remaining response script, current retries
counter, accumulated works, accumulated sleep seconds.  A retriable
status sleeps BACKOFF_BASE^retries, increments retries, and gives up
(raise_for_status, caught by the RequestException handler, break) once
retries exceeds MAX_RETRIES.  A non-retriable error status raises in
raise_for_status and is caught by the same handler: break.  A transport
error breaks.  A page with empty results breaks; a page without a next
cursor extends then breaks; otherwise the loop continues at the next
cursor with retries reset to 0. -/
def fetchLoop {α : Type} : List (Resp α) → Nat → List α → ℚ → List α × ℚ
  | [], _, acc, sl => (acc, sl)
  | r :: rest, retries, acc, sl =>
    match r with
    | .netErr => (acc, sl)
    | .status c =>
      if c ∈ RETRIABLE then
        let sl' := sl + BACKOFF_BASE ^ retries
        if MAX_RETRIES < retries + 1 then (acc, sl')
        else fetchLoop rest (retries + 1) acc sl'
      else (acc, sl)
    | .page results next =>
      if results.isEmpty then (acc, sl)
      else
        match next with
        | none => (acc ++ results, sl)
        | some _ => fetchLoop rest 0 (acc ++ results) sl

/-- Publication-year cell before numeric coercion: a value that
pd.to_numeric can convert, or a non-numeric value (strings, NaN from a
record that lacked the field). -/
inductive YVal where
  | num (n : Int)
  | nonnum
deriving DecidableEq

/-- pd.to_numeric(col, errors="coerce") on one cell: numeric values pass
through, everything else becomes NaN (modelled as none). -/
def coerceYear : YVal → Option Int
  | .num n => some n
  | .nonnum => none

/-- One flattened work row: the coercible year cell plus an opaque
payload standing for all remaining columns. -/
structure WorkRow where
  publication_year : YVal
  payload : Nat
deriving DecidableEq

/-- min_year = current_year - years_back + 1 (line 54). -/
def min_year (currentYear yearsBack : Int) : Int := currentYear - yearsBack + 1

/-- Lines 122-127: df_last = df_all[df_all.publication_year >= min_year]
after coercion; a NaN comparison is False in pandas, so non-numeric rows
drop out.  When the column is absent df_last is empty, which coincides
with this filter because every cell is then non-numeric. -/
def windowFilter (minY : Int) (rows : List WorkRow) : List WorkRow :=
  rows.filter fun w =>
    match coerceYear w.publication_year with
    | some y => decide (minY ≤ y)
    | none => false

/-- A page the loop advances past: non-empty results with a next cursor. -/
def pageOk {α : Type} (p : List α × Option String) : Bool :=
  !p.1.isEmpty && p.2.isSome

/-- A terminating final page: empty results or no next cursor. -/
def lastPageOk {α : Type} : Option (List α × Option String) → Bool
  | none => true
  | some q => q.1.isEmpty || q.2.isNone

/-- A well-formed server page sequence: every page before the last is
advanced past, and the last page terminates the loop. -/
def pagesWf {α : Type} (pages : List (List α × Option String)) : Bool :=
  pages.dropLast.all pageOk && lastPageOk pages.getLast?

end Utils

namespace UCVM

/-- src/etl/UCVM_works.py, request_with_retries (lines 76-93), attempt
loop unrolled over the response script.  A retriable status sleeps
BACKOFF_BASE^attempt + attempt/10; every other failure, including the
HTTPError that raise_for_status throws for a non-429 4xx, lands in the
RequestException handler, which sleeps BACKOFF_BASE^attempt and retries.
Returns (payload on success, total sleep seconds, requests made). -/
def rwrAux {α : Type} (attempt : Nat) :
    List (Resp α) → ℚ → Nat → Option (List α × Option String) × ℚ × Nat
  | script, sl, reqs =>
    if MAX_RETRIES < attempt then (none, sl, reqs)
    else
      match script with
      | [] => (none, sl, reqs)
      | r :: rest =>
        match r with
        | .page results next => (some (results, next), sl, reqs + 1)
        | .status c =>
          if c ∈ RETRIABLE then
            rwrAux (attempt + 1) rest (sl + BACKOFF_BASE ^ attempt + (attempt : ℚ) / 10) (reqs + 1)
          else
            rwrAux (attempt + 1) rest (sl + BACKOFF_BASE ^ attempt) (reqs + 1)
        | .netErr => rwrAux (attempt + 1) rest (sl + BACKOFF_BASE ^ attempt) (reqs + 1)

/-- request_with_retries entry point: attempts start at 1. -/
def request_with_retries {α : Type} (script : List (Resp α)) :
    Option (List α × Option String) × ℚ × Nat :=
  rwrAux 1 script 0 0

end UCVM

namespace Metrics

/-- src/etl/fetch_author_metrics.py, fetch_author retry loop
(lines 154-177), retries = 3, backoff = 1.0.  HTTP 200 returns the JSON;
429/5xx sleeps backoff*attempt and retries; any other status logs and
returns None at once with no sleep; a transport error sleeps
backoff*attempt and retries.  Returns (json, total sleep, requests). -/
def fetchAuthorAux {α : Type} (attempt : Nat) :
    List (Resp α) → ℚ → Nat → Option (List α) × ℚ × Nat
  | script, sl, reqs =>
    if 3 < attempt then (none, sl, reqs)
    else
      match script with
      | [] => (none, sl, reqs)
      | r :: rest =>
        match r with
        | .page results _ => (some results, sl, reqs + 1)
        | .status c =>
          if c ∈ [429, 500, 502, 503, 504] then
            fetchAuthorAux (attempt + 1) rest (sl + (attempt : ℚ)) (reqs + 1)
          else (none, sl, reqs + 1)
        | .netErr => fetchAuthorAux (attempt + 1) rest (sl + (attempt : ℚ)) (reqs + 1)

/-- fetch_author entry point. -/
def fetch_author {α : Type} (script : List (Resp α)) : Option (List α) × ℚ × Nat :=
  fetchAuthorAux 1 script 0 0

end Metrics

namespace Metrics4

/-- src/etl/fetch_author_metrics (4).py, _get (lines 175-191),
max_tries = 3, backoff starts at 1.0 and doubles after every sleep.
429/5xx sleeps and retries; any other error status raises in
raise_for_status and is caught by the RequestException handler, which
also sleeps and retries; so every failure sleeps backoff and doubles it.
Returns (response, total sleep, requests). -/
def getAux {α : Type} (attempt : Nat) (backoff : ℚ) :
    List (Resp α) → ℚ → Nat → Option (List α) × ℚ × Nat
  | script, sl, reqs =>
    if 3 < attempt then (none, sl, reqs)
    else
      match script with
      | [] => (none, sl, reqs)
      | r :: rest =>
        match r with
        | .page results _ => (some results, sl, reqs + 1)
        | .status _ => getAux (attempt + 1) (backoff * 2) rest (sl + backoff) (reqs + 1)
        | .netErr => getAux (attempt + 1) (backoff * 2) rest (sl + backoff) (reqs + 1)

/-- _get entry point. -/
def get_with_retries {α : Type} (script : List (Resp α)) : Option (List α) × ℚ × Nat :=
  getAux 1 1 script 0 0

end Metrics4

/-! ## DataFrame model for the compiled tables

Cells are strings (the compiled tables are read back from CSV).  A
DataFrame is a column-name list plus rows of cells; a cell is looked up
by the position of its column name. -/

namespace UCVM

/-- One table row: cells in column order. -/
abbrev Row := List String

/-- A pandas DataFrame for the compiled tables. -/
structure DF where
  cols : List String
  rows : List Row
deriving DecidableEq

/-- Value of row r in column c (empty string when the column is absent
or the row is short). -/
def cellVal (cols : List String) (r : Row) (c : String) : String :=
  match cols.findIdx? (· = c) with
  | some i => r.getD i ""
  | none => ""

/-- Python str.strip() on a Lean String. -/
def stripS (s : String) : String := String.mk (pystrip s.toList)

/-- uniq_preserve inner loop (lines 199-212): skip the string "nan"
(what astype(str) makes of NaN), strip, skip empties, keep the first
occurrence of each stripped value. -/
def uniqAux (seen : List String) : List String → List String
  | [] => []
  | v :: vs =>
    if v = "nan" then uniqAux seen vs
    else
      let s := stripS v
      if s = "" then uniqAux seen vs
      else if s ∈ seen then uniqAux seen vs
      else s :: uniqAux (s :: seen) vs

/-- uniq_preserve (lines 199-212): "; ".join of the kept values. -/
def uniq_preserve (vals : List String) : String :=
  String.intercalate "; " (uniqAux [] vals)

/-- df.drop_duplicates(subset=[key], keep="first"): keep a row iff its
key was not seen earlier. -/
def dedupFirstByAux {α κ : Type} [DecidableEq κ] (key : α → κ) (seen : List κ) :
    List α → List α
  | [] => []
  | r :: rs =>
    if key r ∈ seen then dedupFirstByAux key seen rs
    else r :: dedupFirstByAux key (key r :: seen) rs

/-- drop_duplicates entry point: nothing seen yet. -/
def dedupFirstBy {α κ : Type} [DecidableEq κ] (key : α → κ) (l : List α) : List α :=
  dedupFirstByAux key [] l

/-- Names of the aggregate columns produced by deduplicate_compiled. -/
def aggNames : List String := ["ucvm_authors", "ucvm_openalex_ids", "num_ucvm_authors"]

/-- Values of column valCol over the group of rows whose id equals k, in
row order (pandas groupby preserves intra-group order). -/
def groupVals (cols : List String) (rows : List Row) (valCol k : String) : List String :=
  (rows.filter fun r => cellVal cols r "id" = k).map fun r => cellVal cols r valCol

/-- Occurrences of the join separator ';' in a string. -/
def countSemis (s : String) : Nat := s.toList.countP (· = ';')

/-- num_ucvm_authors (line 241): 0 for the empty aggregate, else one more
than the number of semicolons in the joined string. -/
def num_ucvm (s : String) : Nat := if s = "" then 0 else countSemis s + 1

/-- src/etl/UCVM_works.py, deduplicate_compiled (lines 215-249).
Empty or id-less tables are returned as they are.  Otherwise rows are
deduplicated on id keeping the first occurrence.  When both author tag
columns exist, the author_name and author_openalex_id values of each id
group are folded with uniq_preserve (groupby + agg) and merged back on
id (how="left"); pandas merge suffixes overlapping non-key column names
with _x on the left and _y on the right. -/
def deduplicate_compiled (df : DF) : DF :=
  if df.rows = [] ∨ "id" ∉ df.cols then df
  else
    let key := fun r => cellVal df.cols r "id"
    let core := dedupFirstBy key df.rows
    if "author_name" ∈ df.cols ∧ "author_openalex_id" ∈ df.cols then
      let leftCols := df.cols.map fun c => if c ∈ aggNames then c ++ "_x" else c
      let rightCols := aggNames.map fun c => if c ∈ df.cols then c ++ "_y" else c
      let aggCells := fun k =>
        let ua := uniq_preserve (groupVals df.cols df.rows "author_name" k)
        let uo := uniq_preserve (groupVals df.cols df.rows "author_openalex_id" k)
        [ua, uo, toString (num_ucvm ua)]
      ⟨leftCols ++ rightCols, core.map fun r => r ++ aggCells (key r)⟩
    else ⟨df.cols, core⟩

/-- State of one compiled CSV file: header plus data rows; none models a
missing (or zero-byte) file. -/
structure FileState where
  header : List String
  rows : List Row
deriving DecidableEq

/-- df.reindex(columns=target, fill_value=""): select the target columns
from a row, filling absent ones with the empty string. -/
def reindexRow (cols : List String) (r : Row) (target : List String) : Row :=
  target.map fun c => cellVal cols r c

/-- src/etl/UCVM_works.py, append_df_to_csv (lines 252-303).
Empty batches return at once.  Otherwise the batch is aligned to the
fixed schema, or to the existing header, or written as is with its own
header, and appended to the file by to_csv.  After the write the
function runs a pasted copy of the deduplicate_compiled body whose
drop_duplicates(subset=["id"]) raises KeyError when the batch has no id
column; the Bool component records whether that exception is raised
(the file mutation has already happened). -/
def append_df_to_csv (df : DF) (fixed_cols : Option (List String))
    (file : Option FileState) : Option FileState × Bool :=
  if df.rows = [] then (file, false)
  else
    let dtw : DF :=
      match fixed_cols with
      | some fc => ⟨fc, df.rows.map fun r => reindexRow df.cols r fc⟩
      | none =>
        match file with
        | some fs => ⟨fs.header, df.rows.map fun r => reindexRow df.cols r fs.header⟩
        | none => df
    let file' :=
      match file with
      | none => some ⟨dtw.cols, dtw.rows⟩
      | some fs => some ⟨fs.header, fs.rows ++ dtw.rows⟩
    (file', decide ("id" ∉ df.cols))

/-- Number of data rows in a compiled file. -/
def fileRowCount (file : Option FileState) : Nat :=
  match file with
  | none => 0
  | some fs => fs.rows.length

/-! ### Control flow of main (lines 306-399 plus the __main__ wrapper) -/

/-- One roster line: optional display name, optional raw OpenAlexID. -/
structure RosterRow where
  name : Option String
  openalexId : Option String

/-- Inputs of one run: the roster file (none when absent or when its
required columns are missing, in which case the loop body never runs)
and the outcome of fetching one author's works (rows of the resulting
all-fields frame, or the exception text). -/
structure RunInput where
  roster : Option (List RosterRow)
  fetch : String → Except String (List Nat)

/-- AUTHOR_ID constant (line 13), always non-empty. -/
def AUTHOR_ID : String := "A5015254879"

/-- Body of the roster loop (lines 337-356): skip missing or unparsable
ids; a fetch exception is caught and logged; a successful author sets
processed_any and appends its rows to the compiled file. -/
def rosterStep (fetch : String → Except String (List Nat))
    (acc : Bool × Nat) (row : RosterRow) : Bool × Nat :=
  match row.openalexId with
  | none => acc
  | some raw =>
    match normalize_author_id raw.toList with
    | none => acc
    | some aid =>
      match fetch (String.mk aid) with
      | .ok works => (true, acc.2 + works.length)
      | .error _ => acc

/-- The whole roster pass: (processed_any, compiled record count). -/
def rosterPass (inp : RunInput) : Bool × Nat :=
  (inp.roster.getD []).foldl (rosterStep inp.fetch) (false, 0)

/-- main plus the top-level wrapper: when no roster author was processed
the single-AUTHOR_ID fallback (lines 359-364) runs outside any local
try, so its exception escapes main and the wrapper exits with status 1;
every completed run exits 0 - the zero-record case only logs a warning
(line 389).  Result: (exit code, records produced). -/
def runMain (inp : RunInput) : Nat × Nat :=
  let pr := rosterPass inp
  if pr.1 then (0, pr.2)
  else
    match inp.fetch AUTHOR_ID with
    | .ok works => (0, pr.2 + works.length)
    | .error _ => (1, pr.2)

end UCVM

/-- The one-element list holding an optional value (used to state which
single row a lookup keeps). -/
def singletonOf {α : Type} : Option α → List α
  | some r => [r]
  | none => []

/-! ## Claim theorems -/

/-- C3: for a fetch in which the server returns HTTP 429 for the first two
attempts at a cursor and 200 on the third, fetch_author_works_filtered
succeeds (the loop simply continues), the total duration of its retry
sleeps is BACKOFF_BASE^0 + BACKOFF_BASE^1 = 1.6^0 + 1.6^1 seconds, and
the retries counter is 0 again in the continuation (third argument of the
right-hand side), i.e. it was reset before advancing to the next cursor. -/
theorem C3_retry_sleep_and_reset {α : Type} (res : List α) (cur : String)
    (rest : List (Resp α)) (acc : List α) (sl : ℚ) (h : res ≠ []) :
    Utils.fetchLoop (.status 429 :: .status 429 :: .page res (some cur) :: rest) 0 acc sl
      = Utils.fetchLoop rest 0 (acc ++ res) (sl + BACKOFF_BASE ^ (0 : ℕ) + BACKOFF_BASE ^ (1 : ℕ)) := by
  cases res with
  | nil => exact absurd rfl h
  | cons a as => simp [Utils.fetchLoop, RETRIABLE, MAX_RETRIES]

/-- Witness for C3 at a concrete script. -/
theorem C3_retry_sleep_and_reset_witness :
    ([1, 2, 3] : List Nat) ≠ [] ∧
    Utils.fetchLoop [.status 429, .status 429, .page [1, 2, 3] (some "c"), .page [] none] 0 [] 0
      = Utils.fetchLoop [.page [] none] 0 ([] ++ [1, 2, 3]) (0 + BACKOFF_BASE ^ (0 : ℕ) + BACKOFF_BASE ^ (1 : ℕ)) :=
  ⟨by decide, C3_retry_sleep_and_reset [1, 2, 3] "c" [.page [] none] [] 0 (by decide)⟩

/-- C4: every row of the windowed subset has a numeric publication year
at least current_year - N + 1; the windowed subset is a sublist of the
full record set; rows with a missing or non-numeric year never appear in
it (and the filter is a total function - it cannot raise). -/
theorem C4_year_window (cy N : Int) (rows : List Utils.WorkRow) :
    (∀ w ∈ Utils.windowFilter (Utils.min_year cy N) rows,
        ∃ y, Utils.coerceYear w.publication_year = some y ∧ cy - N + 1 ≤ y) ∧
    (Utils.windowFilter (Utils.min_year cy N) rows).Sublist rows ∧
    (∀ w ∈ rows, Utils.coerceYear w.publication_year = none →
        w ∉ Utils.windowFilter (Utils.min_year cy N) rows) := by
  refine ⟨?_, List.filter_sublist _, ?_⟩
  · intro w hw
    have hmem := List.mem_filter.mp hw
    rcases hy : Utils.coerceYear w.publication_year with _ | y
    · rw [hy] at hmem; exact absurd hmem.2 (by simp)
    · refine ⟨y, rfl, ?_⟩
      have := hmem.2
      rw [hy] at this
      simpa [Utils.min_year] using of_decide_eq_true this
  · intro w _ hnone hw
    have hmem := List.mem_filter.mp hw
    rw [hnone] at hmem
    exact absurd hmem.2 (by simp)

/-- Witness for C4 at concrete records spanning 2015-2024 with N = 5. -/
theorem C4_year_window_witness :
    (∀ w ∈ Utils.windowFilter (Utils.min_year 2024 5)
        [⟨.num 2024, 0⟩, ⟨.num 2015, 1⟩, ⟨.nonnum, 2⟩],
        ∃ y, Utils.coerceYear w.publication_year = some y ∧ 2024 - 5 + 1 ≤ y) ∧
    (Utils.windowFilter (Utils.min_year 2024 5)
        [⟨.num 2024, 0⟩, ⟨.num 2015, 1⟩, ⟨.nonnum, 2⟩]).Sublist
        [⟨.num 2024, 0⟩, ⟨.num 2015, 1⟩, ⟨.nonnum, 2⟩] ∧
    (∀ w ∈ ([⟨.num 2024, 0⟩, ⟨.num 2015, 1⟩, ⟨.nonnum, 2⟩] : List Utils.WorkRow),
        Utils.coerceYear w.publication_year = none →
        w ∉ Utils.windowFilter (Utils.min_year 2024 5)
          [⟨.num 2024, 0⟩, ⟨.num 2015, 1⟩, ⟨.nonnum, 2⟩]) :=
  C4_year_window 2024 5 [⟨.num 2024, 0⟩, ⟨.num 2015, 1⟩, ⟨.nonnum, 2⟩]

/-- C7 counterexample: a run whose roster yields no author and whose
fallback fetch succeeds with zero works produces zero records yet exits
with status 0, refuting "exit code is non-zero when zero records were
produced". -/
theorem C7_counterexample :
    (UCVM.runMain ⟨some [], fun _ => Except.ok []⟩).2 = 0 ∧
    (UCVM.runMain ⟨some [], fun _ => Except.ok []⟩).1 = 0 :=
  ⟨rfl, rfl⟩

/-- C7 amended: the exit code is 1 exactly when the fallback single-author
fetch raises (no roster author processed and fetch of AUTHOR_ID errors);
every completed run - including one that produced zero records - exits 0. -/
theorem C7_exit_code (inp : UCVM.RunInput) :
    ((UCVM.rosterPass inp).1 = true → UCVM.runMain inp = (0, (UCVM.rosterPass inp).2)) ∧
    (∀ works, (UCVM.rosterPass inp).1 = false → inp.fetch UCVM.AUTHOR_ID = .ok works →
        UCVM.runMain inp = (0, (UCVM.rosterPass inp).2 + works.length)) ∧
    (∀ e, (UCVM.rosterPass inp).1 = false → inp.fetch UCVM.AUTHOR_ID = .error e →
        UCVM.runMain inp = (1, (UCVM.rosterPass inp).2)) := by
  refine ⟨fun h1 => ?_, fun works h1 h2 => ?_, fun e h1 h2 => ?_⟩ <;>
    simp [UCVM.runMain, h1] <;> rw [h2]

/-- Witness for C7: a run where the fallback fetch raises exits 1. -/
theorem C7_exit_code_witness :
    UCVM.runMain ⟨none, fun _ => Except.error "boom"⟩ = (1, (UCVM.rosterPass ⟨none, fun _ => Except.error "boom"⟩).2) :=
  (C7_exit_code ⟨none, fun _ => Except.error "boom"⟩).2.2 "boom" rfl rfl

/-- C9: appending a non-empty batch without an id column appends the
batch's rows to the file and then raises (the pasted aggregation code's
drop_duplicates on the missing id column), so the write has already
happened when the exception propagates; with an id column present the
operation completes without raising. -/
theorem C9_append_raises_after_write (df : UCVM.DF) (fc : Option (List String))
    (file : Option UCVM.FileState) (h : df.rows ≠ []) :
    ((UCVM.append_df_to_csv df fc file).2 = true ↔ "id" ∉ df.cols) ∧
    UCVM.fileRowCount (UCVM.append_df_to_csv df fc file).1
      = UCVM.fileRowCount file + df.rows.length := by
  constructor
  · simp [UCVM.append_df_to_csv, h]
  · cases fc <;> cases file <;>
      simp [UCVM.append_df_to_csv, h, UCVM.fileRowCount, Nat.add_comm]

/-- Witness for C9: a one-row batch with no id column, appended to an
existing one-row file. -/
theorem C9_append_raises_after_write_witness :
    ((UCVM.append_df_to_csv ⟨["x"], [["1"]]⟩ none (some ⟨["x"], [["0"]]⟩)).2 = true
        ↔ "id" ∉ (UCVM.DF.mk ["x"] [["1"]]).cols) ∧
    UCVM.fileRowCount (UCVM.append_df_to_csv ⟨["x"], [["1"]]⟩ none (some ⟨["x"], [["0"]]⟩)).1
      = UCVM.fileRowCount (some ⟨["x"], [["0"]]⟩) + (UCVM.DF.mk ["x"] [["1"]]).rows.length :=
  C9_append_raises_after_write ⟨["x"], [["1"]]⟩ none (some ⟨["x"], [["0"]]⟩) (by decide)

/-- Helper: a run of non-empty pages that each carry a next cursor is
consumed by fetchLoop, which accumulates their results in order, sleeps
nothing, re-enters each page with retries 0, and then continues with the
remaining script. -/
theorem fetchLoop_pages_append {α : Type} :
    ∀ (pages : List (List α × Option String)) (tail : List (Resp α))
      (acc : List α) (sl : ℚ),
      (∀ p ∈ pages, p.1 ≠ [] ∧ p.2 ≠ none) →
      Utils.fetchLoop ((pages.map fun p => Resp.page p.1 p.2) ++ tail) 0 acc sl
        = Utils.fetchLoop tail 0 (acc ++ (pages.map Prod.fst).flatten) sl
  | [], tail, acc, sl, _ => by simp [Utils.fetchLoop]
  | (res, next) :: rest, tail, acc, sl, h => by
    obtain ⟨hres, hnext⟩ := h (res, next) (List.mem_cons_self _ _)
    cases res with
    | nil => exact absurd rfl hres
    | cons a as =>
      cases next with
      | none => exact absurd rfl hnext
      | some c =>
        have ih := fetchLoop_pages_append rest tail (acc ++ (a :: as)) sl
          (fun p hp => h p (List.mem_cons_of_mem _ hp))
        show Utils.fetchLoop ((rest.map fun p => Resp.page p.1 p.2) ++ tail) 0
            (acc ++ (a :: as)) sl = _
        rw [ih]
        simp [List.append_assoc]

/-- C1: over any well-formed page sequence (every page before the last
non-empty and carrying a next cursor, the last page empty or cursorless)
the fetcher yields exactly the concatenation of the results arrays of
the pages, terminating normally when it sees the empty page or the
missing cursor (no sleep is added and the result carries no error). -/
theorem C1_pagination_concat {α : Type} (pages : List (List α × Option String))
    (h : Utils.pagesWf pages = true) :
    Utils.fetchLoop (pages.map fun p => Resp.page p.1 p.2) 0 [] 0
      = ((pages.map Prod.fst).flatten, 0) := by
  rcases List.eq_nil_or_concat pages with rfl | ⟨init, q, rfl⟩
  · simp [Utils.fetchLoop]
  · rw [List.concat_eq_append] at h ⊢
    rw [Utils.pagesWf, List.dropLast_concat, List.getLast?_concat,
      Bool.and_eq_true, List.all_eq_true] at h
    obtain ⟨h1, h2⟩ := h
    have hmap : (init ++ [q]).map (fun p => Resp.page p.1 p.2)
        = (init.map fun p => Resp.page p.1 p.2) ++ [Resp.page q.1 q.2] := by
      simp
    rw [hmap, fetchLoop_pages_append init [Resp.page q.1 q.2] [] 0 ?_]
    · cases hq1 : q.1.isEmpty with
      | true =>
        have : q.1 = [] := List.isEmpty_iff.mp hq1
        simp [Utils.fetchLoop, hq1, this]
      | false =>
        have hq2 : q.2.isNone = true := by
          rw [Utils.lastPageOk, hq1] at h2
          simpa using h2
        have : q.2 = none := Option.isNone_iff_eq_none.mp hq2
        simp [Utils.fetchLoop, hq1, this]
    · intro p hp
      have := h1 p hp
      rw [Utils.pageOk, Bool.and_eq_true] at this
      refine ⟨fun hc => ?_, fun hc => ?_⟩
      · rw [hc] at this; simp at this
      · rw [hc] at this; simp at this

set_option maxRecDepth 8000 in
/-- Witness for C1: pages of 200, 200 and 47 records followed by an
empty page yield exactly 447 records. -/
theorem C1_pagination_concat_witness :
    Utils.pagesWf [(List.range 200, some "c1"), (List.range 200, some "c2"),
        (List.range 47, some "c3"), (([] : List Nat), none)] = true ∧
    (Utils.fetchLoop
        ([(List.range 200, some "c1"), (List.range 200, some "c2"),
            (List.range 47, some "c3"), (([] : List Nat), none)].map
          fun p => Resp.page p.1 p.2) 0 [] 0).1.length = 447 := by
  refine ⟨by decide, ?_⟩
  rw [C1_pagination_concat _ (by decide)]
  decide

/-- C10: when a page request fails mid-pagination with a transport
exception, or exhausts the retry budget (seven consecutive retriable
statuses), fetch_author_works_filtered stops and keeps exactly the works
of the pages accumulated before the failure - the same works a complete
fetch of those pages returns, with no error value distinguishing the
two (the loop's codomain has no error component). -/
theorem C10_truncated_fetch {α : Type} (pages : List (List α × Option String))
    (tail : List (Resp α)) (h : ∀ p ∈ pages, p.1 ≠ [] ∧ p.2 ≠ none) :
    (Utils.fetchLoop ((pages.map fun p => Resp.page p.1 p.2) ++ .netErr :: tail) 0 [] 0).1
      = (pages.map Prod.fst).flatten ∧
    (Utils.fetchLoop ((pages.map fun p => Resp.page p.1 p.2)
        ++ List.replicate 7 (.status 429) ++ tail) 0 [] 0).1
      = (pages.map Prod.fst).flatten ∧
    (Utils.fetchLoop ((pages.map fun p => Resp.page p.1 p.2) ++ [.page [] none]) 0 [] 0).1
      = (pages.map Prod.fst).flatten := by
  refine ⟨?_, ?_, ?_⟩
  · rw [fetchLoop_pages_append pages _ [] 0 h]
    simp [Utils.fetchLoop]
  · rw [List.append_assoc, fetchLoop_pages_append pages _ [] 0 h]
    have hrep : List.replicate 7 (Resp.status (α := α) 429)
        = [.status 429, .status 429, .status 429, .status 429, .status 429,
           .status 429, .status 429] := rfl
    rw [hrep]
    simp [Utils.fetchLoop, RETRIABLE, MAX_RETRIES]
  · rw [fetchLoop_pages_append pages _ [] 0 h]
    simp [Utils.fetchLoop]

/-- Witness for C10 at one concrete accumulated page. -/
theorem C10_truncated_fetch_witness :
    (Utils.fetchLoop (([([1, 2], some "c")].map fun p => Resp.page p.1 p.2)
        ++ .netErr :: []) 0 [] 0).1 = ([([1, 2], some "c")].map Prod.fst).flatten ∧
    (Utils.fetchLoop (([([1, 2], some "c")].map fun p => Resp.page p.1 p.2)
        ++ List.replicate 7 (.status 429) ++ []) 0 [] 0).1
      = ([([1, 2], some "c")].map Prod.fst).flatten ∧
    (Utils.fetchLoop (([([1, 2], some "c")].map fun p => Resp.page p.1 p.2)
        ++ [.page [] none]) 0 [] 0).1 = ([([1, 2], some "c")].map Prod.fst).flatten :=
  C10_truncated_fetch [([1, 2], some "c")] [] (by decide)

/-- C2 counterexample: on a response script answering HTTP 404 to every
attempt, request_with_retries makes 6 requests and accumulates a
non-zero backoff sleep before giving up - the HTTPError that
raise_for_status throws for the 404 is caught by the RequestException
handler, which sleeps and retries.  This refutes "each fetcher aborts
immediately with no retry and no backoff sleep on a 4xx other than 429". -/
theorem C2_counterexample :
    (UCVM.request_with_retries (List.replicate 6 (Resp.status (α := Nat) 404))).2.2 = 6 ∧
    (UCVM.request_with_retries (List.replicate 6 (Resp.status (α := Nat) 404))).2.1 ≠ 0 := by
  constructor
  · rfl
  · simp only [UCVM.request_with_retries, UCVM.rwrAux, MAX_RETRIES, RETRIABLE]
    norm_num [BACKOFF_BASE]

/-- C2 amended: on a 4xx status other than 429,
fetch_author_works_filtered and fetch_author abort the author's fetch at
once - one request, no sleep - while request_with_retries and _get treat
the raised HTTPError like a transport error and retry it with backoff
sleeps until their attempt budgets (6 and 3) are exhausted. -/
theorem C2_nonretriable_4xx :
    (∀ (c : Nat) (rest : List (Resp Nat)) (retries : Nat) (acc : List Nat) (sl : ℚ),
        400 ≤ c → c ∉ RETRIABLE →
        Utils.fetchLoop (.status c :: rest) retries acc sl = (acc, sl)) ∧
    (∀ (c : Nat) (rest : List (Resp Nat)), 400 ≤ c → c ∉ RETRIABLE →
        Metrics.fetch_author (.status c :: rest) = (none, 0, 1)) ∧
    (∀ c : Nat, 400 ≤ c → c ∉ RETRIABLE →
        UCVM.request_with_retries (List.replicate 6 (Resp.status (α := Nat) c))
          = (none, 657384 / 15625, 6)) ∧
    (∀ c : Nat, 400 ≤ c → c ∉ RETRIABLE →
        Metrics4.get_with_retries (List.replicate 3 (Resp.status (α := Nat) c))
          = (none, 7, 3)) := by
  refine ⟨fun c rest retries acc sl _ h => ?_, fun c rest _ h => ?_,
    fun c _ h => ?_, fun c _ h => ?_⟩
  · simp [Utils.fetchLoop, h]
  · have h' : c ∉ [429, 500, 502, 503, 504] := h
    simp [Metrics.fetch_author, Metrics.fetchAuthorAux, h']
  · have hrep : List.replicate 6 (Resp.status (α := Nat) c)
        = [.status c, .status c, .status c, .status c, .status c, .status c] := rfl
    rw [hrep]
    simp only [UCVM.request_with_retries, UCVM.rwrAux, MAX_RETRIES, if_neg h]
    norm_num [BACKOFF_BASE]
  · have hrep : List.replicate 3 (Resp.status (α := Nat) c)
        = [.status c, .status c, .status c] := rfl
    rw [hrep]
    simp only [Metrics4.get_with_retries, Metrics4.getAux]
    norm_num

/-- Witness for C2 amended at c = 404. -/
theorem C2_nonretriable_4xx_witness :
    Utils.fetchLoop (.status 404 :: []) 0 ([] : List Nat) 0 = ([], 0) ∧
    Metrics.fetch_author (.status 404 :: ([] : List (Resp Nat))) = (none, 0, 1) ∧
    UCVM.request_with_retries (List.replicate 6 (Resp.status (α := Nat) 404))
      = (none, 657384 / 15625, 6) ∧
    Metrics4.get_with_retries (List.replicate 3 (Resp.status (α := Nat) 404))
      = (none, 7, 3) :=
  ⟨C2_nonretriable_4xx.1 404 [] 0 [] 0 (by decide) (by decide),
   C2_nonretriable_4xx.2.1 404 [] (by decide) (by decide),
   C2_nonretriable_4xx.2.2.1 404 (by decide) (by decide),
   C2_nonretriable_4xx.2.2.2 404 (by decide) (by decide)⟩

/-- Helper: keeping first occurrences is idempotent, for any seen set. -/
theorem dedupFirstByAux_idem {α κ : Type} [DecidableEq κ] (key : α → κ) :
    ∀ (seen : List κ) (l : List α),
      UCVM.dedupFirstByAux key seen (UCVM.dedupFirstByAux key seen l)
        = UCVM.dedupFirstByAux key seen l
  | _, [] => rfl
  | seen, r :: rs => by
    by_cases hr : key r ∈ seen
    · simp only [UCVM.dedupFirstByAux, if_pos hr]
      exact dedupFirstByAux_idem key seen rs
    · simp only [UCVM.dedupFirstByAux, if_neg hr]
      rw [dedupFirstByAux_idem key (key r :: seen) rs]

/-- Helper: the rows of the deduplicated list whose key equals k are
exactly the first row of the input with that key (none when the key was
already seen). -/
theorem dedupFirstByAux_filter {α κ : Type} [DecidableEq κ] (key : α → κ) (k : κ) :
    ∀ (seen : List κ) (l : List α),
      (UCVM.dedupFirstByAux key seen l).filter (fun r => decide (key r = k))
        = if k ∈ seen then []
          else singletonOf (l.find? fun r => decide (key r = k))
  | seen, [] => by simp [UCVM.dedupFirstByAux, List.find?, singletonOf]
  | seen, r :: rs => by
    by_cases hr : key r ∈ seen
    · simp only [UCVM.dedupFirstByAux, if_pos hr]
      rw [dedupFirstByAux_filter key k seen rs]
      by_cases hk : k ∈ seen
      · simp [hk]
      · have hne : (decide (key r = k)) = false :=
          decide_eq_false fun he => hk (he ▸ hr)
        rw [if_neg hk, if_neg hk, List.find?_cons, hne]
    · simp only [UCVM.dedupFirstByAux, if_neg hr]
      by_cases hrk : key r = k
      · rw [List.filter_cons_of_pos (by simp [hrk])]
        rw [dedupFirstByAux_filter key k (key r :: seen) rs]
        have hk2 : k ∈ key r :: seen := by rw [hrk]; exact List.mem_cons_self _ _
        have hk3 : k ∉ seen := hrk ▸ hr
        rw [if_pos hk2, if_neg hk3, List.find?_cons, decide_eq_true hrk]
        rfl
      · rw [List.filter_cons_of_neg (by simp [hrk])]
        rw [dedupFirstByAux_filter key k (key r :: seen) rs]
        have hiff : (k ∈ key r :: seen) ↔ (k ∈ seen) := by
          constructor
          · intro h
            rcases List.mem_cons.mp h with he | hs
            · exact absurd he.symm hrk
            · exact hs
          · exact List.mem_cons_of_mem _
        rw [if_congr hiff rfl rfl, List.find?_cons, decide_eq_false hrk]

/-- C5: with both author tag columns present (and the aggregate column
names fresh), deduplicate_compiled keeps exactly one row per distinct
id - the first-occurring one, its cells verbatim - and attaches to it
the order-preserving, de-duplicated, semicolon-joined fold of the
author_name (and author_openalex_id) values of all rows sharing the id,
plus the separator-derived count. -/
theorem C5_dedup_first_and_aggregate (df : UCVM.DF)
    (hrows : df.rows ≠ []) (hid : "id" ∈ df.cols)
    (han : "author_name" ∈ df.cols) (hao : "author_openalex_id" ∈ df.cols)
    (hdisj : ∀ c ∈ UCVM.aggNames, c ∉ df.cols) :
    (UCVM.deduplicate_compiled df).cols = df.cols ++ UCVM.aggNames ∧
    (UCVM.deduplicate_compiled df).rows
      = (UCVM.dedupFirstBy (fun r => UCVM.cellVal df.cols r "id") df.rows).map
          (fun r => r ++
            [UCVM.uniq_preserve (UCVM.groupVals df.cols df.rows "author_name"
                (UCVM.cellVal df.cols r "id")),
             UCVM.uniq_preserve (UCVM.groupVals df.cols df.rows "author_openalex_id"
                (UCVM.cellVal df.cols r "id")),
             toString (UCVM.num_ucvm (UCVM.uniq_preserve
                (UCVM.groupVals df.cols df.rows "author_name"
                  (UCVM.cellVal df.cols r "id"))))]) ∧
    (∀ k, (UCVM.dedupFirstBy (fun r => UCVM.cellVal df.cols r "id") df.rows).filter
            (fun r => decide (UCVM.cellVal df.cols r "id" = k))
          = singletonOf (df.rows.find? fun r =>
              decide (UCVM.cellVal df.cols r "id" = k))) := by
  have hcond : ¬(df.rows = [] ∨ "id" ∉ df.cols) := by
    rw [not_or]
    exact ⟨hrows, fun h => h hid⟩
  have hcols_left : (df.cols.map fun c => if c ∈ UCVM.aggNames then c ++ "_x" else c)
      = df.cols := by
    conv_rhs => rw [← List.map_id df.cols]
    exact List.map_congr_left fun c hc => if_neg fun hm => hdisj c hm hc
  have hcols_right : (UCVM.aggNames.map fun c => if c ∈ df.cols then c ++ "_y" else c)
      = UCVM.aggNames := by
    conv_rhs => rw [← List.map_id UCVM.aggNames]
    exact List.map_congr_left fun c hc => if_neg (hdisj c hc)
  refine ⟨?_, ?_, ?_⟩
  · simp only [UCVM.deduplicate_compiled, if_neg hcond, if_pos (And.intro han hao)]
    rw [hcols_left, hcols_right]
  · simp only [UCVM.deduplicate_compiled, if_neg hcond, if_pos (And.intro han hao)]
  · intro k
    rw [UCVM.dedupFirstBy, dedupFirstByAux_filter]
    rw [if_neg (List.not_mem_nil k)]

/-- Witness for C5: a compiled table with two rows sharing id W123. -/
theorem C5_dedup_first_and_aggregate_witness :
    (UCVM.deduplicate_compiled
        ⟨["id", "author_name", "author_openalex_id", "doi"],
         [["W123", "Alice", "A1", "d1"], ["W123", "Bob", "A2", "d1"],
          ["W9", "Alice", "A1", "d3"]]⟩).cols
      = ["id", "author_name", "author_openalex_id", "doi"] ++ UCVM.aggNames ∧
    (UCVM.deduplicate_compiled
        ⟨["id", "author_name", "author_openalex_id", "doi"],
         [["W123", "Alice", "A1", "d1"], ["W123", "Bob", "A2", "d1"],
          ["W9", "Alice", "A1", "d3"]]⟩).rows
      = (UCVM.dedupFirstBy
          (fun r => UCVM.cellVal ["id", "author_name", "author_openalex_id", "doi"] r "id")
          [["W123", "Alice", "A1", "d1"], ["W123", "Bob", "A2", "d1"],
           ["W9", "Alice", "A1", "d3"]]).map
          (fun r => r ++
            [UCVM.uniq_preserve (UCVM.groupVals
                ["id", "author_name", "author_openalex_id", "doi"]
                [["W123", "Alice", "A1", "d1"], ["W123", "Bob", "A2", "d1"],
                 ["W9", "Alice", "A1", "d3"]] "author_name"
                (UCVM.cellVal ["id", "author_name", "author_openalex_id", "doi"] r "id")),
             UCVM.uniq_preserve (UCVM.groupVals
                ["id", "author_name", "author_openalex_id", "doi"]
                [["W123", "Alice", "A1", "d1"], ["W123", "Bob", "A2", "d1"],
                 ["W9", "Alice", "A1", "d3"]] "author_openalex_id"
                (UCVM.cellVal ["id", "author_name", "author_openalex_id", "doi"] r "id")),
             toString (UCVM.num_ucvm (UCVM.uniq_preserve (UCVM.groupVals
                ["id", "author_name", "author_openalex_id", "doi"]
                [["W123", "Alice", "A1", "d1"], ["W123", "Bob", "A2", "d1"],
                 ["W9", "Alice", "A1", "d3"]] "author_name"
                (UCVM.cellVal ["id", "author_name", "author_openalex_id", "doi"] r "id"))))]) ∧
    (∀ k, (UCVM.dedupFirstBy
            (fun r => UCVM.cellVal ["id", "author_name", "author_openalex_id", "doi"] r "id")
            [["W123", "Alice", "A1", "d1"], ["W123", "Bob", "A2", "d1"],
             ["W9", "Alice", "A1", "d3"]]).filter
            (fun r => decide (UCVM.cellVal
              ["id", "author_name", "author_openalex_id", "doi"] r "id" = k))
          = singletonOf (([["W123", "Alice", "A1", "d1"], ["W123", "Bob", "A2", "d1"],
              ["W9", "Alice", "A1", "d3"]] : List UCVM.Row).find?
                fun r => decide (UCVM.cellVal
                  ["id", "author_name", "author_openalex_id", "doi"] r "id" = k))) :=
  C5_dedup_first_and_aggregate
    ⟨["id", "author_name", "author_openalex_id", "doi"],
     [["W123", "Alice", "A1", "d1"], ["W123", "Bob", "A2", "d1"],
      ["W9", "Alice", "A1", "d3"]]⟩
    (by decide) (by decide) (by decide) (by decide) (by decide)

/-- C6 counterexample: deduplicating an already-deduplicated table with
the author tag columns is not the identity - the second pass re-merges
the aggregate columns under _x/_y suffixes. -/
theorem C6_counterexample :
    UCVM.deduplicate_compiled (UCVM.deduplicate_compiled
        ⟨["id", "author_name", "author_openalex_id"], [["W123", "Alice", "A1"]]⟩)
      ≠ UCVM.deduplicate_compiled
        ⟨["id", "author_name", "author_openalex_id"], [["W123", "Alice", "A1"]]⟩ := by
  decide

/-- C6 amended: deduplication is idempotent on every table in which the
author tag columns author_name and author_openalex_id are not both
present (so no aggregation pass runs); with both present, the second
application changes the column set (see the counterexample). -/
theorem C6_dedup_idempotent (df : UCVM.DF)
    (h : ¬("author_name" ∈ df.cols ∧ "author_openalex_id" ∈ df.cols)) :
    UCVM.deduplicate_compiled (UCVM.deduplicate_compiled df)
      = UCVM.deduplicate_compiled df := by
  by_cases h0 : df.rows = [] ∨ "id" ∉ df.cols
  · have hd : UCVM.deduplicate_compiled df = df := by
      simp only [UCVM.deduplicate_compiled, if_pos h0]
    rw [hd, hd]
  · have hd : UCVM.deduplicate_compiled df
        = ⟨df.cols, UCVM.dedupFirstBy (fun r => UCVM.cellVal df.cols r "id") df.rows⟩ := by
      simp only [UCVM.deduplicate_compiled, if_neg h0, if_neg h]
    rw [hd]
    by_cases h2 : UCVM.dedupFirstBy (fun r => UCVM.cellVal df.cols r "id") df.rows = []
    · simp only [UCVM.deduplicate_compiled, h2, true_or, if_pos]
    · have hid : "id" ∈ df.cols := by
        rw [not_or] at h0
        exact not_not.mp h0.2
      have hcond2 : ¬((UCVM.DF.mk df.cols
          (UCVM.dedupFirstBy (fun r => UCVM.cellVal df.cols r "id") df.rows)).rows = []
          ∨ "id" ∉ (UCVM.DF.mk df.cols
          (UCVM.dedupFirstBy (fun r => UCVM.cellVal df.cols r "id") df.rows)).cols) := by
        rw [not_or]
        exact ⟨h2, fun hc => hc hid⟩
      simp only [UCVM.deduplicate_compiled, if_neg hcond2, if_neg h]
      exact congrArg (UCVM.DF.mk df.cols) (dedupFirstByAux_idem _ [] df.rows)

/-- Witness for C6 amended: a table without the author tag columns. -/
theorem C6_dedup_idempotent_witness :
    UCVM.deduplicate_compiled (UCVM.deduplicate_compiled
        ⟨["id", "doi"], [["W1", "d1"], ["W1", "d2"], ["W2", "d3"]]⟩)
      = UCVM.deduplicate_compiled
        ⟨["id", "doi"], [["W1", "d1"], ["W1", "d2"], ["W2", "d3"]]⟩ :=
  C6_dedup_idempotent ⟨["id", "doi"], [["W1", "d1"], ["W1", "d2"], ["W2", "d3"]]⟩
    (by decide)

/-- Helper: dropWhile is idempotent. -/
theorem pyDropWhile_idem {α : Type} (p : α → Bool) :
    ∀ l : List α, List.dropWhile p (List.dropWhile p l) = List.dropWhile p l
  | [] => rfl
  | c :: cs => by
    by_cases h : p c = true
    · rw [List.dropWhile_cons_of_pos h]
      exact pyDropWhile_idem p cs
    · rw [List.dropWhile_cons_of_neg h, List.dropWhile_cons_of_neg h]

/-- Helper: trimL is idempotent. -/
theorem trimL_idem (l : List Char) : trimL (trimL l) = trimL l :=
  pyDropWhile_idem pyWs l

/-- Helper: trimR is idempotent. -/
theorem trimR_idem (l : List Char) : trimR (trimR l) = trimR l := by
  rw [trimR, trimR, List.reverse_reverse, pyDropWhile_idem]

/-- Helper: trimL keeps a list whose head is not whitespace. -/
theorem trimL_cons_false {c : Char} (l : List Char) (hc : pyWs c = false) :
    trimL (c :: l) = c :: l := by
  rw [trimL, List.dropWhile_cons_of_neg (by rw [hc]; exact Bool.false_ne_true)]

/-- Helper: trimR of a list is one of its prefixes. -/
theorem trimR_prefix (l : List Char) : trimR l <+: l := by
  have h := List.dropWhile_suffix (l := l.reverse) pyWs
  have h2 := List.reverse_prefix.mpr h
  rwa [List.reverse_reverse] at h2

/-- Helper: a trimL fixed point starting with c has non-whitespace c. -/
theorem trimL_fix_cons {c : Char} {l : List Char} (h : trimL (c :: l) = c :: l) :
    pyWs c = false := by
  by_cases hc : pyWs c = true
  · exfalso
    rw [trimL, List.dropWhile_cons_of_pos hc] at h
    have hlen := List.Sublist.length_le (List.IsSuffix.sublist
      (@List.dropWhile_suffix Char l pyWs))
    rw [h, List.length_cons] at hlen
    omega
  · exact eq_false_of_ne_true hc

/-- Helper: trimR preserves being a trimL fixed point. -/
theorem trimL_trimR_fix {x : List Char} (h : trimL x = x) :
    trimL (trimR x) = trimR x := by
  cases h2 : trimR x with
  | nil => rfl
  | cons c cs =>
    have hpre : (c :: cs) <+: x := h2 ▸ trimR_prefix x
    obtain ⟨u, hu⟩ := hpre
    have hx : x = c :: (cs ++ u) := by rw [← hu]; rfl
    have hc : pyWs c = false := trimL_fix_cons (by rw [← hx, h, hx])
    exact trimL_cons_false cs hc

/-- Helper: pystrip is idempotent. -/
theorem pystrip_idem (l : List Char) : pystrip (pystrip l) = pystrip l := by
  rw [pystrip, pystrip, trimL_trimR_fix (trimL_idem l), trimR_idem]

/-- Helper: trimR of pystrip does nothing. -/
theorem trimR_pystrip (l : List Char) : trimR (pystrip l) = pystrip l := by
  rw [pystrip, trimR_idem]

/-- Helper: trimR distributes over appending to a trimR fixed point. -/
theorem trimR_append_left (pre y : List Char) (htrim : trimR pre = pre) :
    trimR (pre ++ y) = pre ++ trimR y := by
  have hp : List.dropWhile pyWs pre.reverse = pre.reverse := by
    have := congrArg List.reverse htrim
    rwa [trimR, List.reverse_reverse] at this
  rw [trimR, List.reverse_append, List.dropWhile_append]
  by_cases hE : (List.dropWhile pyWs y.reverse).isEmpty = true
  · rw [if_pos hE, hp, List.reverse_reverse]
    have hy : trimR y = [] := by
      rw [trimR, List.isEmpty_iff.mp hE]
      rfl
    rw [hy, List.append_nil]
  · rw [if_neg hE, List.reverse_append, List.reverse_reverse, trimR]

/-- Helper: trimL keeps an append whose left part is a non-empty trimL
fixed point. -/
theorem trimL_append_left (pre y : List Char) (h : trimL pre = pre) (hne : pre ≠ []) :
    trimL (pre ++ y) = pre ++ y := by
  rw [trimL, List.dropWhile_append]
  have h1 : List.dropWhile pyWs pre = pre := h
  rw [h1, if_neg (by simpa [List.isEmpty_iff] using hne)]

/-- Helper: takeWhile keeps a list all of whose members satisfy p. -/
theorem takeWhile_all {α : Type} (p : α → Bool) :
    ∀ l : List α, (∀ c ∈ l, p c = true) → l.takeWhile p = l
  | [], _ => rfl
  | c :: cs, h => by
    rw [List.takeWhile_cons_of_pos (h c (List.mem_cons_self _ _))]
    rw [takeWhile_all p cs fun d hd => h d (List.mem_cons_of_mem _ hd)]

/-- Helper: a list of non-whitespace characters that is a prefix of a
list followed by trailing whitespace is a prefix of the list itself. -/
theorem pref_of_pref_append_ws :
    ∀ (p a w : List Char), (∀ c ∈ w, pyWs c = true) → (∀ c ∈ p, pyWs c = false) →
      p <+: (a ++ w) → p <+: a
  | [], _, _, _, _, _ => List.nil_prefix
  | c :: p2, [], w, hw, hp, hpre => by
    exfalso
    obtain ⟨u, hu⟩ := hpre
    have hcw : c ∈ w := by
      rw [List.nil_append] at hu
      rw [← hu]
      exact List.mem_cons_self _ _
    have := hw c hcw
    rw [hp c (List.mem_cons_self _ _)] at this
    exact Bool.false_ne_true this
  | c :: p2, b :: a2, w, hw, hp, hpre => by
    rw [List.cons_append, List.cons_prefix_cons] at hpre
    rw [List.cons_prefix_cons]
    exact ⟨hpre.1, pref_of_pref_append_ws p2 a2 w hw
      (fun d hd => hp d (List.mem_cons_of_mem _ hd)) hpre.2⟩

/-- Helper: a list is its trimR followed by trailing whitespace. -/
theorem trimR_decomp (l : List Char) :
    ∃ w, l = trimR l ++ w ∧ ∀ c ∈ w, pyWs c = true := by
  refine ⟨(l.reverse.takeWhile pyWs).reverse, ?_, ?_⟩
  · have := List.takeWhile_append_dropWhile (p := pyWs) (l := l.reverse)
    have h2 := congrArg List.reverse this
    rw [List.reverse_append, List.reverse_reverse] at h2
    rw [trimR]
    exact h2.symm
  · intro c hc
    exact List.mem_takeWhile_imp (List.mem_reverse.mp hc)

/-- Helper: a prefix made of non-whitespace characters survives trimR. -/
theorem prefix_trimR {p l : List Char} (hp : ∀ c ∈ p, pyWs c = false)
    (hpre : p <+: l) : p <+: trimR l := by
  obtain ⟨w, hw, hws⟩ := trimR_decomp l
  exact pref_of_pref_append_ws p (trimR l) w hws hp (hw ▸ hpre)

/-- Helper: pystrip keeps a list without whitespace characters. -/
theorem pystrip_all_nonws {l : List Char} (h : ∀ c ∈ l, pyWs c = false) :
    pystrip l = l := by
  have h1 : trimL l = l := by
    cases l with
    | nil => rfl
    | cons c cs => exact trimL_cons_false cs (h c (List.mem_cons_self _ _))
  have h2 : trimR l = l := by
    rw [trimR]
    cases hr : l.reverse with
    | nil =>
      rw [List.dropWhile_nil, ← hr, List.reverse_reverse]
    | cons c cs =>
      have hcl : c ∈ l := List.mem_reverse.mp (hr ▸ List.mem_cons_self c cs)
      rw [List.dropWhile_cons_of_neg (by rw [h c hcl]; exact Bool.false_ne_true)]
      rw [← hr, List.reverse_reverse]
  rw [pystrip, h1, h2]

/-- Helper: a decimal digit is not Python whitespace. -/
theorem digit_not_ws (c : Char) (h : c.isDigit = true) : pyWs c = false := by
  simp only [pyWs]
  apply decide_eq_false
  intro hor
  rcases hor with h1 | h1 | h1 | h1 | h1 | h1 <;> subst h1 <;> exact absurd h (by decide)

/-- Helper: a successful A-token search returns the letter A followed by
at least six digits. -/
theorem regexSearchA_shape :
    ∀ (l t : List Char), UCVM.regexSearchA l = some t →
      ∃ ds, t = 'A' :: ds ∧ (∀ c ∈ ds, c.isDigit = true) ∧ 6 ≤ ds.length
  | [], t, h => absurd h (by simp [UCVM.regexSearchA])
  | c :: rest, t, h => by
    rw [UCVM.regexSearchA] at h
    by_cases hc : (c = 'A' ∧ 6 ≤ (rest.takeWhile Char.isDigit).length)
    · rw [if_pos hc] at h
      exact ⟨rest.takeWhile Char.isDigit, (Option.some.inj h).symm,
        fun d hd => List.mem_takeWhile_imp hd, hc.2⟩
    · rw [if_neg hc] at h
      exact regexSearchA_shape rest t h

/-- Helper: the UCVM bare-id normalizer is idempotent on its own output. -/
theorem ucvm_normalize_idem (s t : List Char)
    (h : UCVM.normalize_author_id s = some t) :
    UCVM.normalize_author_id t = some t := by
  have hsh : ∃ ds, t = 'A' :: ds ∧ (∀ c ∈ ds, c.isDigit = true) ∧ 6 ≤ ds.length := by
    rw [UCVM.normalize_author_id] at h
    by_cases h1 : pystrip s = []
    · rw [if_pos h1] at h
      exact absurd h (by simp)
    · rw [if_neg h1] at h
      exact regexSearchA_shape _ t h
  obtain ⟨ds, rfl, hds, hlen⟩ := hsh
  have hnonws : ∀ c ∈ ('A' :: ds), pyWs c = false := by
    intro c hc
    rcases List.mem_cons.mp hc with rfl | hcd
    · decide
    · exact digit_not_ws c (hds c hcd)
  have hstrip : pystrip ('A' :: ds) = 'A' :: ds := pystrip_all_nonws hnonws
  have hslash : ¬('/' ∈ ('A' :: ds)) := by
    intro hmem
    rcases List.mem_cons.mp hmem with he | hd
    · exact absurd he (by decide)
    · exact absurd (hds _ hd) (by decide)
  rw [UCVM.normalize_author_id, hstrip]
  rw [if_neg (by simp : ¬('A' :: ds = [])), if_neg hslash]
  rw [UCVM.regexSearchA, takeWhile_all Char.isDigit ds hds]
  rw [if_pos ⟨rfl, hlen⟩]

/-- Helper: the openalex-site URI ensurer is idempotent. -/
theorem ensure_openalex_uri_idem (s : List Char) :
    Utils.ensure_openalex_uri (Utils.ensure_openalex_uri s)
      = Utils.ensure_openalex_uri s := by
  by_cases hc : (("http://".toList).isPrefixOf (pystrip s) = true
      ∨ ("https://".toList).isPrefixOf (pystrip s) = true)
  · have h1 : Utils.ensure_openalex_uri s = pystrip s := by
      simp only [Utils.ensure_openalex_uri, if_pos hc]
    rw [h1]
    simp only [Utils.ensure_openalex_uri, pystrip_idem]
    rw [if_pos hc]
  · have h1 : Utils.ensure_openalex_uri s
        = ("https://openalex.org/".toList) ++ pystrip s := by
      simp only [Utils.ensure_openalex_uri, if_neg hc]
    rw [h1]
    simp only [Utils.ensure_openalex_uri]
    have hps : pystrip (("https://openalex.org/".toList) ++ pystrip s)
        = ("https://openalex.org/".toList) ++ pystrip s := by
      rw [pystrip, trimL_append_left _ _ (by decide) (by decide),
        trimR_append_left _ _ (by decide), trimR_pystrip]
    rw [hps]
    have hpre : ("https://".toList).isPrefixOf
        (("https://openalex.org/".toList) ++ pystrip s) = true := by
      rw [List.isPrefixOf_iff_prefix]
      exact List.IsPrefix.trans (List.isPrefixOf_iff_prefix.mp (by decide))
        (List.prefix_append _ _)
    rw [if_pos (Or.inr hpre)]

/-- Helper: two incomparable lists cannot both be prefixes of one list. -/
theorem not_both_prefixes {l p q : List Char} (hpq : p.isPrefixOf q = false)
    (hqp : q.isPrefixOf p = false) (hp : p <+: l) (hq : q <+: l) : False := by
  rcases List.prefix_or_prefix_of_prefix hp hq with h | h
  · rw [List.isPrefixOf_iff_prefix.mpr h] at hpq
    exact absurd hpq (by decide)
  · rw [List.isPrefixOf_iff_prefix.mpr h] at hqp
    exact absurd hqp (by decide)

/-- Helper: every output of the metrics normalizer is empty or starts
with the API base address. -/
theorem metrics_good (s : List Char) :
    Metrics.normalize_author_id s = [] ∨
    ("https://api.openalex.org/".toList <+: Metrics.normalize_author_id s ∨
     "http://api.openalex.org/".toList <+: Metrics.normalize_author_id s) := by
  simp only [Metrics.normalize_author_id]
  by_cases h1 : (pystrip s = [] ∨ lowerL (pystrip s) = "nan".toList
      ∨ lowerL (pystrip s) = "none".toList)
  · rw [if_pos h1]
    exact Or.inl rfl
  · rw [if_neg h1]
    by_cases h2 : (("https://openalex.org/".toList).isPrefixOf (pystrip s) = true
        ∨ ("http://openalex.org/".toList).isPrefixOf (pystrip s) = true)
    · rw [if_pos h2]
      exact Or.inr (Or.inl (List.IsPrefix.trans
        (List.isPrefixOf_iff_prefix.mp (by decide)) (List.prefix_append _ _)))
    · rw [if_neg h2]
      by_cases h3 : (("https://api.openalex.org/".toList).isPrefixOf (pystrip s) = true
          ∨ ("http://api.openalex.org/".toList).isPrefixOf (pystrip s) = true)
      · rw [if_pos h3]
        rcases h3 with h3 | h3
        · exact Or.inr (Or.inl (List.isPrefixOf_iff_prefix.mp h3))
        · exact Or.inr (Or.inr (List.isPrefixOf_iff_prefix.mp h3))
      · rw [if_neg h3]
        exact Or.inr (Or.inl (List.IsPrefix.trans
          (List.isPrefixOf_iff_prefix.mp (by decide)) (List.prefix_append _ _)))

/-- Helper: on an input that starts with the API base address the
metrics normalizer returns the stripped input. -/
theorem metrics_api_fixpoint (o : List Char)
    (ho : "https://api.openalex.org/".toList <+: o
      ∨ "http://api.openalex.org/".toList <+: o) :
    Metrics.normalize_author_id o = pystrip o := by
  have htl : trimL o = o := by
    rcases ho with h | h
    · obtain ⟨u, hu⟩ := h
      rw [← hu]
      exact trimL_cons_false _ (by decide)
    · obtain ⟨u, hu⟩ := h
      rw [← hu]
      exact trimL_cons_false _ (by decide)
  have hps : pystrip o = trimR o := by rw [pystrip, htl]
  have hpre2 : "https://api.openalex.org/".toList <+: pystrip o
      ∨ "http://api.openalex.org/".toList <+: pystrip o := by
    rw [hps]
    rcases ho with h | h
    · exact Or.inl (prefix_trimR (by decide) h)
    · exact Or.inr (prefix_trimR (by decide) h)
  have hlen : 24 ≤ (pystrip o).length := by
    rcases hpre2 with h | h
    · have h1 := List.IsPrefix.length_le h
      have h2 : ("https://api.openalex.org/".toList).length = 25 := by decide
      omega
    · have h1 := List.IsPrefix.length_le h
      have h2 : ("http://api.openalex.org/".toList).length = 24 := by decide
      omega
  have hc1 : ¬(pystrip o = [] ∨ lowerL (pystrip o) = "nan".toList
      ∨ lowerL (pystrip o) = "none".toList) := by
    intro hor
    rcases hor with h | h | h
    · rw [h] at hlen
      exact absurd hlen (by decide)
    · have h1 := congrArg List.length h
      simp only [lowerL, List.length_map] at h1
      have h2 : ("nan".toList).length = 3 := by decide
      omega
    · have h1 := congrArg List.length h
      simp only [lowerL, List.length_map] at h1
      have h2 : ("none".toList).length = 4 := by decide
      omega
  have hc2 : ¬(("https://openalex.org/".toList).isPrefixOf (pystrip o) = true
      ∨ ("http://openalex.org/".toList).isPrefixOf (pystrip o) = true) := by
    intro hor
    rcases hor with h | h <;> rcases hpre2 with hA | hA <;>
      exact not_both_prefixes (by decide) (by decide) hA
        (List.isPrefixOf_iff_prefix.mp h)
  have hc3 : (("https://api.openalex.org/".toList).isPrefixOf (pystrip o) = true
      ∨ ("http://api.openalex.org/".toList).isPrefixOf (pystrip o) = true) := by
    rcases hpre2 with h | h
    · exact Or.inl (List.isPrefixOf_iff_prefix.mpr h)
    · exact Or.inr (List.isPrefixOf_iff_prefix.mpr h)
  simp only [Metrics.normalize_author_id]
  rw [if_neg hc1, if_neg hc2, if_pos hc3]

/-- C8 counterexample: the metrics normalizer is not idempotent on every
input.  The human-site URL with a space before its trailing slash
normalizes to an API URL with a trailing space, and a second application
strips that space, changing the output. -/
theorem C8_counterexample :
    Metrics.normalize_author_id (Metrics.normalize_author_id
        ("https://openalex.org/A5015254879 /".toList))
      ≠ Metrics.normalize_author_id ("https://openalex.org/A5015254879 /".toList) := by
  decide

/-- C8 amended: the UCVM bare-id normalizer and the URI ensurer are
idempotent on every input; the metrics API-URL normalizer satisfies
re-application equals strip-of-output (so it is idempotent exactly on
the inputs whose output carries no trailing whitespace - in particular
an already-canonical API URL or bare identifier is returned unchanged -
but not on all inputs, see the counterexample). -/
theorem C8_normalizer_idempotence :
    (∀ s t, UCVM.normalize_author_id s = some t →
      UCVM.normalize_author_id t = some t) ∧
    (∀ s, Utils.ensure_openalex_uri (Utils.ensure_openalex_uri s)
      = Utils.ensure_openalex_uri s) ∧
    (∀ s, Metrics.normalize_author_id (Metrics.normalize_author_id s)
      = pystrip (Metrics.normalize_author_id s)) := by
  refine ⟨ucvm_normalize_idem, ensure_openalex_uri_idem, fun s => ?_⟩
  rcases metrics_good s with h | h
  · rw [h]
    decide
  · exact metrics_api_fixpoint _ h

/-- Witness for C8 amended at canonical identifiers. -/
theorem C8_normalizer_idempotence_witness :
    UCVM.normalize_author_id ("A5015254879".toList) = some ("A5015254879".toList) ∧
    Utils.ensure_openalex_uri (Utils.ensure_openalex_uri ("A5015254879".toList))
      = Utils.ensure_openalex_uri ("A5015254879".toList) ∧
    Metrics.normalize_author_id (Metrics.normalize_author_id ("openalex:a123".toList))
      = pystrip (Metrics.normalize_author_id ("openalex:a123".toList)) :=
  ⟨C8_normalizer_idempotence.1 ("https://openalex.org/A5015254879".toList)
      ("A5015254879".toList) (by decide),
   C8_normalizer_idempotence.2.1 ("A5015254879".toList),
   C8_normalizer_idempotence.2.2 ("openalex:a123".toList)⟩
